import Mathlib

/-!
Verification development for the `loop_lib` execution-coordination core
(`src/lib.rs`).  The Rust source is shallowly embedded: strings are lists of
characters, the per-item unit executors become pure functions over an explicit
`World` describing the relevant facts about the outside world (does the target
directory exist, what did the process spawn return), and the coordinator
`execute_commands_internal` becomes a pure function from the configuration, the
two unit executors and an arbitrary completion order of the parallel workers to
the ordered result list, the summary and the run-level pass/fail signal.
-/

namespace LoopSpec

/-- Strings, modelled as lists of characters (Rust `&str` / `String`). -/
abbrev Str := List Char

/-- Rust `char::is_whitespace`: the Unicode `White_Space` property,
by code point. -/
def isWS (c : Char) : Bool :=
  let n := c.toNat
  n == 0x09 || n == 0x0A || n == 0x0B || n == 0x0C || n == 0x0D ||
  n == 0x20 || n == 0x85 || n == 0xA0 || n == 0x1680 ||
  (0x2000 ≤ n && n ≤ 0x200A) ||
  n == 0x2028 || n == 0x2029 || n == 0x202F || n == 0x205F || n == 0x3000

/-- Rust `s.split_whitespace().next()`: drop leading whitespace; if nothing
remains there is no token, otherwise the first token is the maximal run of
non-whitespace characters. -/
def splitWhitespaceFirst (s : Str) : Option Str :=
  match s.dropWhile isWS with
  | [] => none
  | c :: rest => some ((c :: rest).takeWhile (fun a => !isWS a))

/-- Boolean prefix test on character lists (Rust `str::starts_with` used by
substring search). -/
def isPrefixOfB : Str → Str → Bool
  | [], _ => true
  | _ :: _, [] => false
  | a :: as, b :: bs => a == b && isPrefixOfB as bs

/-- Leftmost occurrence of `pat` in the remaining string, reporting the
absolute index (`i` indices already consumed). -/
def findFrom (pat : Str) : Str → Nat → Option Nat
  | s, i =>
    if isPrefixOfB pat s then some i
    else
      match s with
      | [] => none
      | _ :: rest => findFrom pat rest (i + 1)

/-- Index of the leftmost occurrence of `pat` in `s`, if any. -/
def findSub (s pat : Str) : Option Nat :=
  findFrom pat s 0

/-- Rust `str::contains` (substring containment). -/
def containsSub (s pat : Str) : Bool :=
  (findSub s pat).isSome

/-- Rust `s.replacen(pat, rep, 1)`: replace the leftmost occurrence of `pat`
in `s` by `rep`; if `pat` does not occur, return `s` unchanged. -/
def replaceFirst (s pat rep : Str) : Str :=
  match findSub s pat with
  | none => s
  | some i => s.take i ++ rep ++ s.drop (i + pat.length)

/-- Rust `s.trim_end_matches('/')`: strip every trailing `'/'`. -/
def trimEndSlashes (s : Str) : Str :=
  (s.reverse.dropWhile (fun c => c == '/')).reverse

/-- The alias table (Rust `HashMap<String, String>`), as an association list
with its lookup function. -/
abbrev AliasTable := List (Str × Str)

/-- Lookup by key equality (Rust `HashMap::get`). -/
def lookupAlias : AliasTable → Str → Option Str
  | [], _ => none
  | (k, v) :: rest, tok => if k = tok then some v else lookupAlias rest tok

/-- Alias resolution as performed identically in `execute_command_in_directory`
and `execute_command_in_directory_capturing`:

    command.split_whitespace().next()
      .and_then(|cmd| aliases.get(cmd).map(|alias_cmd| (cmd, alias_cmd)))
      .map(|(cmd, alias_cmd)| command.replacen(cmd, alias_cmd, 1))
      .unwrap_or_else(|| command.to_string())
-/
def resolveCommand (aliases : AliasTable) (command : Str) : Str :=
  match splitWhitespaceFirst command with
  | none => command
  | some tok =>
    match lookupAlias aliases tok with
    | none => command
    | some aliasCmd => replaceFirst command tok aliasCmd

/-- The run configuration (Rust `LoopConfig`), with the defaults of its
`Default` impl.  `spawn_stagger_ms` is a `u64`; it is carried here exactly as
in the source, where it is declared and documented but — as proved below —
never consulted by the execution engine. -/
structure LoopConfig where
  directories : List Str := []
  ignore : List Str := [".git".toList]
  verbose : Bool := false
  silent : Bool := false
  add_aliases_to_global_looprc : Bool := false
  include_filters : Option (List Str) := none
  exclude_filters : Option (List Str) := none
  parallel : Bool := false
  dry_run : Bool := false
  json_output : Bool := false
  spawn_stagger_ms : Nat := 0
deriving DecidableEq, Repr

/-- A work item (Rust `DirCommand`): a directory and a command line. -/
structure DirCommand where
  dir : Str
  cmd : Str
deriving DecidableEq, Repr

/-- A per-item Outcome (Rust `CommandResult`). -/
structure CommandResult where
  success : Bool
  exit_code : Int
  directory : Str
  command : Str
  stdout : Str
  stderr : Str
deriving DecidableEq, Repr

/-- The `Default` impl of `CommandResult` (`#[derive(Default)]`). -/
def CommandResult.mkDefault : CommandResult :=
  { success := false, exit_code := 0, directory := [], command := [],
    stdout := [], stderr := [] }

instance : Inhabited CommandResult := ⟨CommandResult.mkDefault⟩

/-- What the operating system reported for one child process
(Rust `ExitStatus` together with the captured streams).  `code = none`
models `status.code() == None` (terminated by signal). -/
structure SpawnOutput where
  code : Option Int
  out_text : Str
  err_text : Str
deriving DecidableEq, Repr

/-- The facts about the outside world one unit-executor call depends on:
whether the target directory exists, the current working directory (used only
to render `"."` in dry-run messages), and what spawning the child process
returned — `none` models an `io::Error` from `spawn()` / `.output()`
(launch failure), with `spawnErrMsg` its textual rendering. -/
structure World where
  dirExists : Bool
  cwd : Option Str
  spawnResult : Option SpawnOutput
  spawnErrMsg : Str
deriving DecidableEq, Repr

/-- Result of the streaming unit executor: Rust
`execute_command_in_directory` returns a `CommandResult`, but its spawn path
uses `.expect(...)`, which aborts the process instead of returning. -/
inductive StreamExecResult where
  | ok (r : CommandResult) : StreamExecResult
  | panicked (msg : Str) : StreamExecResult
deriving DecidableEq, Repr

/-- `dir_display` of the dry-run branches: `"."` is rendered as the current
working directory when that is available. -/
def dirDisplay (w : World) (dir : Str) : Str :=
  if dir = ".".toList then
    match w.cwd with
    | some c => c
    | none => ".".toList
  else dir

/-- Rust `status.success()` on Unix: exit code 0. -/
def statusSuccess (code : Option Int) : Bool :=
  code == some 0

/-- Rust `status.code().unwrap_or(-1)`. -/
def statusExitCode (code : Option Int) : Int :=
  code.getD (-1)

/-- The streaming unit executor, Rust `execute_command_in_directory`
(src/lib.rs:183).  The second component records whether a child-process spawn
was attempted.  Branches in source order: missing directory, alias
resolution, dry run, spawn (with `.expect` panic on launch failure), wait. -/
def executeCommandInDirectory (w : World) (dir : Str) (command : Str)
    (config : LoopConfig) (aliases : AliasTable) : StreamExecResult × Bool :=
  if !w.dirExists then
    (.ok { success := false, exit_code := 1, directory := dir,
           command := command, stdout := [], stderr := [] }, false)
  else
    let resolved_command := resolveCommand aliases command
    if config.dry_run then
      (.ok { success := true, exit_code := 0, directory := dir,
             command := resolved_command, stdout := [], stderr := [] }, false)
    else
      match w.spawnResult with
      | none => (.panicked "Failed to execute command".toList, true)
      | some outp =>
        (.ok { success := statusSuccess outp.code,
               exit_code := statusExitCode outp.code,
               directory := dir, command := resolved_command,
               stdout := [], stderr := [] }, true)

/-- The capturing unit executor, Rust
`execute_command_in_directory_capturing` (src/lib.rs:318).  The second
component records whether a child-process spawn was attempted. -/
def executeCommandInDirectoryCapturing (w : World) (dir : Str) (command : Str)
    (config : LoopConfig) (aliases : AliasTable) : CommandResult × Bool :=
  if !w.dirExists then
    ({ success := false, exit_code := 1, directory := dir, command := command,
       stdout := [],
       stderr := "Directory does not exist: ".toList ++ dir }, false)
  else
    let resolved_command := resolveCommand aliases command
    if config.dry_run then
      ({ success := true, exit_code := 0, directory := dir,
         command := resolved_command,
         stdout := "[DRY RUN] Would execute in ".toList ++ dirDisplay w dir
                   ++ ":\n  ".toList ++ resolved_command,
         stderr := [] }, false)
    else
      match w.spawnResult with
      | some outp =>
        ({ success := statusSuccess outp.code,
           exit_code := statusExitCode outp.code,
           directory := dir, command := resolved_command,
           stdout := outp.out_text, stderr := outp.err_text }, true)
      | none =>
        ({ success := false, exit_code := -1, directory := dir,
           command := resolved_command, stdout := [],
           stderr := "Failed to execute: ".toList ++ w.spawnErrMsg }, true)

/-- The `summary` object of the JSON report (Rust `JsonSummary`); in text mode
the same `total` / `failed_count` quantities drive the rendered lines. -/
structure JsonSummary where
  total : Nat
  succeeded : Nat
  failed : Nat
  dry_run : Bool
deriving DecidableEq, Repr

/-- What one coordinator run produces: the ordered Outcome list, the summary,
and the run-level signal (`true` = `Ok(())`, `false` = the
`Err(\x22At least one command failed\x22)` return). -/
structure RunReport where
  results : List CommandResult
  summary : JsonSummary
  runOk : Bool
deriving DecidableEq, Repr

/-- Index-keyed merge of the parallel workers' results.  Rayon's
`par_iter().enumerate().map(..).collect::<Vec<_>>()` stores each worker's
result in the slot of its original index, whatever the completion order;
`tagged` is the stream of `(original index, result)` pairs in completion
order, and slot `i` receives the result tagged `i`. -/
def gatherByIndex (n : Nat) (tagged : List (Nat × CommandResult)) :
    List CommandResult :=
  (List.range n).map (fun i => (tagged.lookup i).getD CommandResult.mkDefault)

/-- The `(original index, result)` pairs produced by the parallel workers,
listed in the completion order `order`; the worker for index `i` runs the
capturing executor on item `i`. -/
def taggedResults (execCapt : DirCommand → CommandResult)
    (commands : List DirCommand) (order : List Nat) :
    List (Nat × CommandResult) :=
  order.map (fun i =>
    (i, match commands.get? i with
        | some c => execCapt c
        | none => CommandResult.mkDefault))

/-- The unified execution engine, Rust `execute_commands_internal`
(src/lib.rs:504), abstracted over the two unit executors (`execStream` the
streaming variant, `execCapt` the capturing one) and, in parallel mode, over
the completion order of the workers.  Mirrors the source: empty input is an
immediate `Ok(())`; parallel mode maps every item through the capturing
executor with index-stable collection; sequential mode walks the items in
order, choosing the capturing executor exactly when `json_output` is set;
then `total` / `failed_count` are computed from the result list, the summary
is built, and the run fails exactly on `failed_count > 0 && !dry_run`. -/
def executeCommandsInternal (config : LoopConfig)
    (execStream execCapt : DirCommand → CommandResult)
    (order : List Nat) (commands : List DirCommand) : RunReport :=
  if commands.isEmpty then
    { results := [],
      summary := { total := 0, succeeded := 0, failed := 0,
                   dry_run := config.dry_run },
      runOk := true }
  else
    let results :=
      if config.parallel then
        gatherByIndex commands.length (taggedResults execCapt commands order)
      else
        commands.map (fun c =>
          if config.json_output then execCapt c else execStream c)
    let total := results.length
    let failed_count := (results.filter (fun r => !r.success)).length
    { results := results,
      summary := { total := total, succeeded := total - failed_count,
                   failed := failed_count, dry_run := config.dry_run },
      runOk := !(decide (failed_count > 0) && !config.dry_run) }

/-- The include/exclude filtering applied by Rust `run` (src/lib.rs:430) to
the configured directory list before building the work items. -/
def filterDirs (config : LoopConfig) (dirs : List Str) : List Str :=
  let dirs1 :=
    match config.include_filters with
    | some includes =>
      if !includes.isEmpty then
        dirs.filter (fun p => includes.any (fun f => containsSub p f))
      else dirs
    | none => dirs
  match config.exclude_filters with
  | some excludes =>
    if !excludes.isEmpty then
      dirs1.filter (fun p =>
        !(excludes.any (fun f => containsSub p (trimEndSlashes f))))
    else dirs1
  | none => dirs1

/-- The include/exclude filtering applied by Rust `run_commands`
(src/lib.rs:731) to an explicit work-item list, keyed on each item's `dir`. -/
def filterCommands (config : LoopConfig) (commands : List DirCommand) :
    List DirCommand :=
  let filtered :=
    match config.include_filters with
    | some includes =>
      if !includes.isEmpty then
        commands.filter (fun c => includes.any (fun f => containsSub c.dir f))
      else commands
    | none => commands
  match config.exclude_filters with
  | some excludes =>
    if !excludes.isEmpty then
      filtered.filter (fun c =>
        !(excludes.any (fun f => containsSub c.dir (trimEndSlashes f))))
    else filtered
  | none => filtered

/-- Modelled from the spec (claim C10's wording): keep a directory path iff
the include filters are absent, empty, or some include string is a substring
of the path, and no exclude string, after stripping trailing `'/'`
characters, is a substring of the path. -/
def keepDirSpec (config : LoopConfig) (p : Str) : Bool :=
  (match config.include_filters with
   | none => true
   | some includes =>
     includes.isEmpty || includes.any (fun f => containsSub p f)) &&
  !(match config.exclude_filters with
    | none => false
    | some excludes =>
      !excludes.isEmpty &&
      excludes.any (fun f => containsSub p (trimEndSlashes f)))

/-- Sample alias table used by concrete instances below. -/
def sampleAliases : AliasTable := [("ll".toList, "ls -l".toList)]

/-- A world where the target directory is missing. -/
def sampleWorldNoDir : World :=
  { dirExists := false, cwd := none, spawnResult := none, spawnErrMsg := [] }

/-- A world where the directory exists but the child process cannot be
spawned. -/
def sampleWorldSpawnFail : World :=
  { dirExists := true, cwd := none, spawnResult := none,
    spawnErrMsg := "No such file or directory (os error 2)".toList }

/-- A world where the directory exists and the child exits with code 0. -/
def sampleWorldOk : World :=
  { dirExists := true, cwd := none,
    spawnResult := some { code := some 0, out_text := [], err_text := [] },
    spawnErrMsg := [] }

/-- Concrete work items for witness instances. -/
def sampleItem1 : DirCommand := { dir := "a".toList, cmd := "echo test".toList }

def sampleItem2 : DirCommand := { dir := "b".toList, cmd := "false".toList }

/-- A unit executor producing a success Outcome for every item. -/
def execSucceed : DirCommand → CommandResult := fun c =>
  { success := true, exit_code := 0, directory := c.dir, command := c.cmd,
    stdout := [], stderr := [] }

/-- A unit executor producing a failed Outcome for every item. -/
def execFail : DirCommand → CommandResult := fun c =>
  { success := false, exit_code := 1, directory := c.dir, command := c.cmd,
    stdout := [], stderr := [] }

/-- The capturing unit executor run under dry-run against a world where no
item's directory exists. -/
def execNoDir : DirCommand → CommandResult := fun c =>
  (executeCommandInDirectoryCapturing sampleWorldNoDir c.dir c.cmd
    { dry_run := true } sampleAliases).1

/-! ## Supporting lemmas -/

theorem gatherByIndex_length (n : Nat) (tagged : List (Nat × CommandResult)) :
    (gatherByIndex n tagged).length = n := by
  simp [gatherByIndex]

theorem lookup_taggedResults (execC : DirCommand → CommandResult)
    (commands : List DirCommand) (order : List Nat) (i : Nat)
    (hmem : i ∈ order) :
    (taggedResults execC commands order).lookup i =
      some (match commands.get? i with
            | some c => execC c
            | none => CommandResult.mkDefault) := by
  induction order with
  | nil => cases hmem
  | cons j rest ih =>
    simp only [taggedResults, List.map_cons, List.lookup]
    by_cases hij : i = j
    · subst hij
      simp
    · have : (i == j) = false := by simp [hij]
      rw [this]
      rcases List.mem_cons.mp hmem with h | h
      · exact absurd h hij
      · exact ih h

theorem executeCommandsInternal_results (config : LoopConfig)
    (execStream execCapt : DirCommand → CommandResult)
    (order : List Nat) (commands : List DirCommand) :
    (executeCommandsInternal config execStream execCapt order
      commands).results =
      if commands.isEmpty then []
      else if config.parallel then
        gatherByIndex commands.length (taggedResults execCapt commands order)
      else
        commands.map (fun c =>
          if config.json_output then execCapt c else execStream c) := by
  unfold executeCommandsInternal
  by_cases h : commands.isEmpty <;> by_cases hp : config.parallel <;>
    simp [h, hp]

theorem executeCommandsInternal_length (config : LoopConfig)
    (execStream execCapt : DirCommand → CommandResult)
    (order : List Nat) (commands : List DirCommand) :
    (executeCommandsInternal config execStream execCapt order
      commands).results.length = commands.length := by
  rw [executeCommandsInternal_results]
  by_cases h : commands.isEmpty
  · simp [h, List.isEmpty_iff.mp h]
  · by_cases hp : config.parallel <;> simp [h, hp, gatherByIndex_length]

theorem executeCommandsInternal_summary (config : LoopConfig)
    (execStream execCapt : DirCommand → CommandResult)
    (order : List Nat) (commands : List DirCommand) :
    (executeCommandsInternal config execStream execCapt order
      commands).summary =
      { total := (executeCommandsInternal config execStream execCapt order
          commands).results.length,
        succeeded := (executeCommandsInternal config execStream execCapt order
            commands).results.length -
          ((executeCommandsInternal config execStream execCapt order
              commands).results.filter (fun r => !r.success)).length,
        failed := ((executeCommandsInternal config execStream execCapt order
            commands).results.filter (fun r => !r.success)).length,
        dry_run := config.dry_run } := by
  unfold executeCommandsInternal
  by_cases h : commands.isEmpty <;> simp [h]

theorem executeCommandsInternal_runOk (config : LoopConfig)
    (execStream execCapt : DirCommand → CommandResult)
    (order : List Nat) (commands : List DirCommand) :
    (executeCommandsInternal config execStream execCapt order
      commands).runOk =
      !(decide (0 < ((executeCommandsInternal config execStream execCapt order
          commands).results.filter (fun r => !r.success)).length) &&
        !config.dry_run) := by
  unfold executeCommandsInternal
  by_cases h : commands.isEmpty <;> simp [h]

theorem isPrefixOfB_append (l t : Str) : isPrefixOfB l (l ++ t) = true := by
  induction l with
  | nil => rfl
  | cons a as ih => simp [isPrefixOfB, ih]

theorem findFrom_here (pat s : Str) (i : Nat)
    (h : isPrefixOfB pat s = true) : findFrom pat s i = some i := by
  cases s <;> simp [findFrom, h]

theorem findFrom_cons_skip (pat : Str) (c : Char) (s : Str) (i : Nat)
    (h : isPrefixOfB pat (c :: s) = false) :
    findFrom pat (c :: s) i = findFrom pat s (i + 1) := by
  rw [findFrom, h]
  simp

theorem dropWhile_head_false (p : Char → Bool) (l : List Char) (c : Char)
    (rest : List Char) (h : l.dropWhile p = c :: rest) : p c = false := by
  induction l with
  | nil => simp [List.dropWhile] at h
  | cons x xs ih =>
    rw [List.dropWhile_cons] at h
    by_cases hx : p x
    · rw [if_pos hx] at h
      exact ih h
    · rw [if_neg hx] at h
      cases h
      simpa using hx

/-- Skipping a whitespace prefix: a pattern starting with a non-whitespace
character has no occurrence inside a run of whitespace characters. -/
theorem findFrom_ws_skip (p0 : Char) (ps : Str) (h0 : isWS p0 = false)
    (pre : Str) (hpre : ∀ c ∈ pre, isWS c = true) (s : Str) (i : Nat) :
    findFrom (p0 :: ps) (pre ++ s) i = findFrom (p0 :: ps) s (i + pre.length) := by
  induction pre generalizing i with
  | nil => simp
  | cons c pr ih =>
    have hc : isWS c = true := hpre c (by simp)
    have hpc : (p0 == c) = false := by
      apply beq_eq_false_iff_ne.mpr
      intro e
      rw [e, hc] at h0
      cases h0
    have hne : isPrefixOfB (p0 :: ps) (c :: (pr ++ s)) = false := by
      simp [isPrefixOfB, hpc]
    calc findFrom (p0 :: ps) ((c :: pr) ++ s) i
        = findFrom (p0 :: ps) (pr ++ s) (i + 1) := by
          rw [List.cons_append]
          exact findFrom_cons_skip _ c _ i hne
      _ = findFrom (p0 :: ps) s (i + 1 + pr.length) :=
          ih (fun a ha => hpre a (by simp [ha])) (i + 1)
      _ = findFrom (p0 :: ps) s (i + (c :: pr).length) := by
          rw [List.length_cons]
          congr 1
          omega

/-- The heart of claim C4: when the command line's first token is in the alias
table, resolution rewrites exactly that token — the whitespace before it and
everything after it survive unchanged. -/
theorem resolveCommand_decomposition (aliases : AliasTable)
    (cmd tok exp : Str)
    (h1 : splitWhitespaceFirst cmd = some tok)
    (h2 : lookupAlias aliases tok = some exp) :
    ∃ pre post, cmd = pre ++ tok ++ post ∧ (∀ c ∈ pre, isWS c = true) ∧
      resolveCommand aliases cmd = pre ++ exp ++ post := by
  have h1' := h1
  unfold splitWhitespaceFirst at h1
  cases hdrop : cmd.dropWhile isWS with
  | nil =>
    rw [hdrop] at h1
    cases h1
  | cons c rest =>
    rw [hdrop] at h1
    injection h1 with h1
    have hc : isWS c = false := dropWhile_head_false isWS cmd c rest hdrop
    have hq : (fun a => !isWS a) c = true := by simp [hc]
    have htok : tok = c :: rest.takeWhile (fun a => !isWS a) := by
      rw [← h1, List.takeWhile_cons]
      simp [hc]
    have hsplit1 : cmd.takeWhile isWS ++ (c :: rest) = cmd := by
      rw [← hdrop]
      exact List.takeWhile_append_dropWhile isWS cmd
    have hsplit2 :
        tok ++ rest.dropWhile (fun a => !isWS a) = c :: rest := by
      rw [htok, List.cons_append,
        List.takeWhile_append_dropWhile (fun a => !isWS a) rest]
    refine ⟨cmd.takeWhile isWS, rest.dropWhile (fun a => !isWS a), ?_, ?_, ?_⟩
    · rw [List.append_assoc, hsplit2, hsplit1]
    · intro x hx
      exact List.mem_takeWhile_imp hx
    · have hfind :
          findSub cmd tok = some (cmd.takeWhile isWS).length := by
        unfold findSub
        conv_lhs => rw [← hsplit1, ← hsplit2]
        rw [htok]
        rw [findFrom_ws_skip c _ hc (cmd.takeWhile isWS)
          (fun a ha => List.mem_takeWhile_imp ha) _ 0]
        rw [← htok, findFrom_here tok _ _ (isPrefixOfB_append tok _)]
        rw [Nat.zero_add]
      have htake : cmd.take (cmd.takeWhile isWS).length = cmd.takeWhile isWS := by
        have ht := List.take_left (cmd.takeWhile isWS) (c :: rest)
        rw [hsplit1] at ht
        exact ht
      have hdropc :
          cmd.drop ((cmd.takeWhile isWS).length + tok.length) =
            rest.dropWhile (fun a => !isWS a) := by
        have hlen : (cmd.takeWhile isWS ++ tok).length =
            (cmd.takeWhile isWS).length + tok.length :=
          List.length_append _ _
        have hd := @List.drop_left' _ (cmd.takeWhile isWS ++ tok)
          (rest.dropWhile (fun a => !isWS a)) _ hlen
        rw [List.append_assoc, hsplit2, hsplit1] at hd
        exact hd
      simp only [resolveCommand, replaceFirst, h1', h2, hfind, htake, hdropc]

/-! ## Claims -/

/-- C1.  The coordinator signals run-level failure exactly when the number of
failed Outcomes is positive and dry-run is not set; with `dry_run = true` it
always signals success, whatever the individual Outcomes are. -/
theorem c1_failure_signal (config : LoopConfig)
    (execStream execCapt : DirCommand → CommandResult)
    (order : List Nat) (commands : List DirCommand) :
    ((executeCommandsInternal config execStream execCapt order
        commands).runOk = false ↔
      0 < (executeCommandsInternal config execStream execCapt order
            commands).results.countP (fun r => !r.success) ∧
      config.dry_run = false) ∧
    (config.dry_run = true →
      (executeCommandsInternal config execStream execCapt order
        commands).runOk = true) := by
  rw [executeCommandsInternal_runOk, List.countP_eq_length_filter]
  cases hd : config.dry_run <;> simp [hd]

/-- C2.  For every concurrency mode and every completion order of the
parallel workers, the Outcome at position `i` of the result list is the
Outcome the mode's unit executor produces for the work item at position `i`
of the input list. -/
theorem c2_positional_order (config : LoopConfig)
    (execStream execCapt : DirCommand → CommandResult)
    (order : List Nat) (commands : List DirCommand)
    (h : order.Perm (List.range commands.length)) (i : Nat) :
    (executeCommandsInternal config execStream execCapt order
      commands).results.get? i =
      (commands.get? i).map (fun c =>
        if config.parallel then execCapt c
        else if config.json_output then execCapt c else execStream c) := by
  rw [executeCommandsInternal_results]
  by_cases he : commands.isEmpty
  · rw [List.isEmpty_iff.mp he]
    simp
  · by_cases hp : config.parallel
    · simp only [he, hp, Bool.false_eq_true, if_false, if_true]
      by_cases hi : i < commands.length
      · have hmem : i ∈ order :=
          h.mem_iff.mpr (List.mem_range.mpr hi)
        rw [gatherByIndex, List.get?_map, List.get?_range hi]
        simp only [Option.map_some']
        rw [lookup_taggedResults execCapt commands order i hmem,
          List.get?_eq_get hi]
        simp
      · have hge : commands.length ≤ i := Nat.le_of_not_lt hi
        rw [List.get?_len_le (by simpa [gatherByIndex_length] using hge),
          List.get?_len_le hge]
        simp
    · simp [he, hp, List.get?_map]

/-- C2 witness: two items in parallel mode completing in reversed order still
land in input order. -/
theorem c2_positional_order_witness :
    ([1, 0].Perm (List.range [sampleItem1, sampleItem2].length)) ∧
    (executeCommandsInternal { parallel := true } execFail execSucceed [1, 0]
      [sampleItem1, sampleItem2]).results.get? 0 =
      ([sampleItem1, sampleItem2].get? 0).map (fun c =>
        if ({ parallel := true } : LoopConfig).parallel then execSucceed c
        else if ({ parallel := true } : LoopConfig).json_output then
          execSucceed c
        else execFail c) :=
  ⟨by decide,
   c2_positional_order { parallel := true } execFail execSucceed [1, 0]
     [sampleItem1, sampleItem2] (by decide) 0⟩

/-- C4.  Alias resolution splits the command line on whitespace and looks up
only the first token.  If the token is absent (or the line has no token) the
command line passes through unchanged; if present, exactly the first
occurrence of the token — which sits right after the leading whitespace — is
replaced by its expansion and the rest of the line is untouched; the table
`ll ↦ ls -l` turns `ll -a` into `ls -l -a`. -/
theorem c4_alias_resolution (aliases : AliasTable) (cmd : Str) :
    (splitWhitespaceFirst cmd = none → resolveCommand aliases cmd = cmd) ∧
    (∀ tok, splitWhitespaceFirst cmd = some tok →
      lookupAlias aliases tok = none → resolveCommand aliases cmd = cmd) ∧
    (∀ tok exp, splitWhitespaceFirst cmd = some tok →
      lookupAlias aliases tok = some exp →
      ∃ pre post, cmd = pre ++ tok ++ post ∧ (∀ c ∈ pre, isWS c = true) ∧
        resolveCommand aliases cmd = pre ++ exp ++ post) ∧
    resolveCommand sampleAliases "ll -a".toList = "ls -l -a".toList := by
  refine ⟨?_, ?_, ?_, by decide⟩
  · intro h
    simp [resolveCommand, h]
  · intro tok h1 h2
    simp [resolveCommand, h1, h2]
  · intro tok exp h1 h2
    exact resolveCommand_decomposition aliases cmd tok exp h1 h2

/-- C4 witness: a command line whose first token has no alias passes through
unchanged. -/
theorem c4_alias_resolution_witness :
    splitWhitespaceFirst "xx -a".toList = some "xx".toList ∧
    lookupAlias sampleAliases "xx".toList = none ∧
    resolveCommand sampleAliases "xx -a".toList = "xx -a".toList :=
  ⟨by decide, by decide,
   (c4_alias_resolution sampleAliases "xx -a".toList).2.1 "xx".toList
     (by decide) (by decide)⟩

/-- C3.  For every (non-empty) item list the summary satisfies
`total = commands.length`, `succeeded + failed = total`, and `failed` counts
the Outcomes whose success flag is false. -/
theorem c3_summary_invariant (config : LoopConfig)
    (execStream execCapt : DirCommand → CommandResult)
    (order : List Nat) (commands : List DirCommand)
    (h : commands ≠ []) :
    (executeCommandsInternal config execStream execCapt order
      commands).summary.total = commands.length ∧
    (executeCommandsInternal config execStream execCapt order
      commands).summary.succeeded +
      (executeCommandsInternal config execStream execCapt order
        commands).summary.failed =
      (executeCommandsInternal config execStream execCapt order
        commands).summary.total ∧
    (executeCommandsInternal config execStream execCapt order
      commands).summary.failed =
      (executeCommandsInternal config execStream execCapt order
        commands).results.countP (fun r => !r.success) := by
  refine ⟨?_, ?_, ?_⟩
  · rw [executeCommandsInternal_summary]
    exact executeCommandsInternal_length config execStream execCapt order
      commands
  · rw [executeCommandsInternal_summary]
    exact Nat.sub_add_cancel (List.length_filter_le _ _)
  · rw [executeCommandsInternal_summary, List.countP_eq_length_filter]

/-- C5.  A missing directory makes both unit-executor variants return a
failed Outcome with exit code 1 and attempt no process spawn; the result
carries the literal command line and does not depend on the alias table or on
the dry-run flag, so the check precedes alias resolution and the dry-run
short-circuit. -/
theorem c5_missing_directory (w : World) (dir command : Str)
    (config : LoopConfig) (aliases : AliasTable)
    (h : w.dirExists = false) :
    executeCommandInDirectory w dir command config aliases =
      (.ok { success := false, exit_code := 1, directory := dir,
             command := command, stdout := [], stderr := [] }, false) ∧
    executeCommandInDirectoryCapturing w dir command config aliases =
      ({ success := false, exit_code := 1, directory := dir,
         command := command, stdout := [],
         stderr := "Directory does not exist: ".toList ++ dir }, false) := by
  constructor <;>
    simp [executeCommandInDirectory, executeCommandInDirectoryCapturing, h]

/-- C5 witness: a concrete missing-directory call, with dry-run set and an
alias that would apply, showing neither is consulted. -/
theorem c5_missing_directory_witness :
    sampleWorldNoDir.dirExists = false ∧
    executeCommandInDirectory sampleWorldNoDir "a".toList "ll -a".toList
      { dry_run := true } sampleAliases =
      (.ok { success := false, exit_code := 1, directory := "a".toList,
             command := "ll -a".toList, stdout := [], stderr := [] },
       false) :=
  ⟨by decide,
   (c5_missing_directory sampleWorldNoDir "a".toList "ll -a".toList
     { dry_run := true } sampleAliases (by decide)).1⟩

/-- C6 counterexample: the claim says a spawn failure is recovered into a
failed Outcome in both variants, but the streaming variant panics
(`.expect("Failed to execute command")`) instead of returning an Outcome. -/
theorem c6_counterexample :
    executeCommandInDirectory sampleWorldSpawnFail "a".toList
      "echo test".toList {} [] =
      (.panicked "Failed to execute command".toList, true) := by
  decide

/-- C6 amended.  A spawn failure is recovered locally into a failed Outcome
with exit code -1 and a diagnostic in the captured-stderr field in the
capturing variant; the streaming variant does not recover — it panics. -/
theorem c6_spawn_failure (w : World) (dir cmd : Str) (config : LoopConfig)
    (aliases : AliasTable) (h1 : w.dirExists = true)
    (h2 : config.dry_run = false) (h3 : w.spawnResult = none) :
    executeCommandInDirectoryCapturing w dir cmd config aliases =
      ({ success := false, exit_code := -1, directory := dir,
         command := resolveCommand aliases cmd, stdout := [],
         stderr := "Failed to execute: ".toList ++ w.spawnErrMsg }, true) ∧
    executeCommandInDirectory w dir cmd config aliases =
      (.panicked "Failed to execute command".toList, true) := by
  constructor <;>
    simp [executeCommandInDirectory, executeCommandInDirectoryCapturing,
      h1, h2, h3]

/-- C6 witness: a concrete spawn failure. -/
theorem c6_spawn_failure_witness :
    sampleWorldSpawnFail.dirExists = true ∧
    executeCommandInDirectoryCapturing sampleWorldSpawnFail "a".toList
      "echo test".toList {} sampleAliases =
      ({ success := false, exit_code := -1, directory := "a".toList,
         command := resolveCommand sampleAliases "echo test".toList,
         stdout := [],
         stderr := "Failed to execute: ".toList ++
           sampleWorldSpawnFail.spawnErrMsg }, true) :=
  ⟨by decide,
   (c6_spawn_failure sampleWorldSpawnFail "a".toList "echo test".toList {}
     sampleAliases (by decide) (by decide) (by decide)).1⟩

/-- C7 counterexample: under dry-run an item whose directory is missing still
yields a failed Outcome with exit code 1, so `summary.failed` is not 0 and
not every dry-run Outcome is a success with exit code 0. -/
theorem c7_counterexample :
    (executeCommandsInternal { dry_run := true } execNoDir execNoDir []
      [sampleItem1]).summary.failed = 1 ∧
    (executeCommandInDirectoryCapturing sampleWorldNoDir sampleItem1.dir
      sampleItem1.cmd { dry_run := true } sampleAliases).1.success = false ∧
    (executeCommandInDirectoryCapturing sampleWorldNoDir sampleItem1.dir
      sampleItem1.cmd { dry_run := true } sampleAliases).1.exit_code = 1 := by
  decide

/-- C7 amended.  Under dry-run no process is ever spawned and the run-level
signal is always success; every item whose directory exists yields a success
Outcome with exit code 0; an item with a missing directory still yields the
failed missing-directory Outcome (exit code 1), also without a spawn. -/
theorem c7_dry_run (w : World) (dir cmd : Str) (config : LoopConfig)
    (aliases : AliasTable) (h : config.dry_run = true) :
    ((executeCommandInDirectory w dir cmd config aliases).2 = false ∧
     (executeCommandInDirectoryCapturing w dir cmd config aliases).2 =
       false) ∧
    (w.dirExists = true →
      (executeCommandInDirectory w dir cmd config aliases).1 =
        .ok { success := true, exit_code := 0, directory := dir,
              command := resolveCommand aliases cmd, stdout := [],
              stderr := [] } ∧
      (executeCommandInDirectoryCapturing w dir cmd config aliases).1 =
        { success := true, exit_code := 0, directory := dir,
          command := resolveCommand aliases cmd,
          stdout := "[DRY RUN] Would execute in ".toList ++ dirDisplay w dir
                    ++ ":\n  ".toList ++ resolveCommand aliases cmd,
          stderr := [] }) ∧
    (∀ (execS execC : DirCommand → CommandResult) (order : List Nat)
      (commands : List DirCommand),
      (executeCommandsInternal config execS execC order commands).runOk =
        true) := by
  refine ⟨?_, ?_, ?_⟩
  · by_cases hd : w.dirExists <;>
      simp [executeCommandInDirectory, executeCommandInDirectoryCapturing,
        h, hd]
  · intro hd
    constructor <;>
      simp [executeCommandInDirectory, executeCommandInDirectoryCapturing,
        h, hd]
  · intro execS execC order commands
    simp [executeCommandsInternal_runOk, h]

/-- C7 witness: a concrete dry-run call against an existing directory. -/
theorem c7_dry_run_witness :
    ({ dry_run := true } : LoopConfig).dry_run = true ∧
    (executeCommandInDirectory sampleWorldOk "a".toList "ll -a".toList
      { dry_run := true } sampleAliases).2 = false ∧
    (executeCommandInDirectoryCapturing sampleWorldOk "a".toList
      "ll -a".toList { dry_run := true } sampleAliases).2 = false :=
  ⟨by decide,
   (c7_dry_run sampleWorldOk "a".toList "ll -a".toList { dry_run := true }
     sampleAliases (by decide)).1⟩

/-- C8 counterexample: the missing-directory failure Outcome carries the
literal input command line, not the alias-resolved one. -/
theorem c8_counterexample :
    (executeCommandInDirectoryCapturing sampleWorldNoDir "a".toList
      "ll -a".toList {} sampleAliases).1.command = "ll -a".toList ∧
    resolveCommand sampleAliases "ll -a".toList = "ls -l -a".toList ∧
    "ll -a".toList ≠ "ls -l -a".toList := by
  decide

/-- C8 amended.  Every Outcome produced for an existing directory (dry-run,
spawn-failure and executed alike) carries the alias-resolved command line;
the missing-directory Outcome instead carries the literal input command. -/
theorem c8_resolved_command (w : World) (dir cmd : Str)
    (config : LoopConfig) (aliases : AliasTable) :
    (w.dirExists = true →
      (executeCommandInDirectoryCapturing w dir cmd config
        aliases).1.command = resolveCommand aliases cmd ∧
      (∀ r, (executeCommandInDirectory w dir cmd config aliases).1 = .ok r →
        r.command = resolveCommand aliases cmd)) ∧
    (w.dirExists = false →
      (executeCommandInDirectoryCapturing w dir cmd config
        aliases).1.command = cmd ∧
      (∀ r, (executeCommandInDirectory w dir cmd config aliases).1 = .ok r →
        r.command = cmd)) := by
  constructor
  · intro hd
    constructor
    · by_cases hr : config.dry_run <;> cases hs : w.spawnResult <;>
        simp [executeCommandInDirectoryCapturing, hd, hr, hs]
    · intro r hr'
      by_cases hr : config.dry_run <;> cases hs : w.spawnResult <;>
        simp [executeCommandInDirectory, hd, hr, hs] at hr' <;>
        simp [← hr']
  · intro hd
    constructor
    · simp [executeCommandInDirectoryCapturing, hd]
    · intro r hr'
      simp [executeCommandInDirectory, hd] at hr'
      simp [← hr']

/-- C8 witness: an executed item whose Outcome carries the resolved command. -/
theorem c8_resolved_command_witness :
    sampleWorldOk.dirExists = true ∧
    (executeCommandInDirectoryCapturing sampleWorldOk "a".toList
      "ll -a".toList {} sampleAliases).1.command =
      resolveCommand sampleAliases "ll -a".toList :=
  ⟨by decide,
   ((c8_resolved_command sampleWorldOk "a".toList "ll -a".toList {}
     sampleAliases).1 (by decide)).1⟩

/-- C3 witness: a concrete two-item sequential run. -/
theorem c3_summary_invariant_witness :
    ([sampleItem1, sampleItem2] ≠ ([] : List DirCommand)) ∧
    ((executeCommandsInternal {} execSucceed execSucceed []
        [sampleItem1, sampleItem2]).summary.total =
      [sampleItem1, sampleItem2].length ∧
      (executeCommandsInternal {} execSucceed execSucceed []
        [sampleItem1, sampleItem2]).summary.succeeded +
        (executeCommandsInternal {} execSucceed execSucceed []
          [sampleItem1, sampleItem2]).summary.failed =
        (executeCommandsInternal {} execSucceed execSucceed []
          [sampleItem1, sampleItem2]).summary.total ∧
      (executeCommandsInternal {} execSucceed execSucceed []
        [sampleItem1, sampleItem2]).summary.failed =
        (executeCommandsInternal {} execSucceed execSucceed []
          [sampleItem1, sampleItem2]).results.countP
            (fun r => !r.success)) :=
  ⟨by decide,
   c3_summary_invariant {} execSucceed execSucceed []
     [sampleItem1, sampleItem2] (by decide)⟩

/-- C9.  The coordinator's behaviour is identical for every value of
`spawn_stagger_ms`: the field is declared and documented in `LoopConfig` but
never consulted by `execute_commands_internal`, so no delay is ever applied
between worker spawns. -/
theorem c9_stagger_unused (config : LoopConfig) (n : Nat)
    (execStream execCapt : DirCommand → CommandResult)
    (order : List Nat) (commands : List DirCommand) :
    executeCommandsInternal { config with spawn_stagger_ms := n }
      execStream execCapt order commands =
      executeCommandsInternal config execStream execCapt order commands :=
  rfl

/-- C10.  `run` and `run_commands` keep an item exactly when the include
filters are absent, empty, or some include string is a substring of its
directory, and no exclude string — after stripping trailing `'/'` — is a
substring of its directory; as a `List.filter` by that predicate, the
retained items keep their relative order. -/
theorem c10_filtering (config : LoopConfig) (dirs : List Str)
    (commands : List DirCommand) :
    filterDirs config dirs = dirs.filter (keepDirSpec config) ∧
    filterCommands config commands =
      commands.filter (fun c => keepDirSpec config c.dir) := by
  constructor
  · unfold filterDirs
    cases hinc : config.include_filters with
    | none =>
      cases hexc : config.exclude_filters with
      | none =>
        symm
        rw [List.filter_eq_self]
        intro a _
        simp [keepDirSpec, hinc, hexc]
      | some el =>
        by_cases he : el.isEmpty
        · simp only [he, Bool.not_true, Bool.false_eq_true, if_false]
          symm
          rw [List.filter_eq_self]
          intro a _
          simp [keepDirSpec, hinc, hexc, he]
        · simp only [Bool.not_eq_true] at he
          simp only [he, Bool.not_false, if_true]
          exact List.filter_congr fun a _ => by
            simp [keepDirSpec, hinc, hexc, he]
    | some il =>
      by_cases hi : il.isEmpty
      · simp only [hi, Bool.not_true, Bool.false_eq_true, if_false]
        cases hexc : config.exclude_filters with
        | none =>
          symm
          rw [List.filter_eq_self]
          intro a _
          simp [keepDirSpec, hinc, hexc, hi]
        | some el =>
          by_cases he : el.isEmpty
          · simp only [he, Bool.not_true, Bool.false_eq_true, if_false]
            symm
            rw [List.filter_eq_self]
            intro a _
            simp [keepDirSpec, hinc, hexc, hi, he]
          · simp only [Bool.not_eq_true] at he
            simp only [he, Bool.not_false, if_true]
            exact List.filter_congr fun a _ => by
              simp [keepDirSpec, hinc, hexc, hi, he]
      · simp only [Bool.not_eq_true] at hi
        simp only [hi, Bool.not_false, if_true]
        cases hexc : config.exclude_filters with
        | none =>
          exact List.filter_congr fun a _ => by
            simp [keepDirSpec, hinc, hexc, hi]
        | some el =>
          by_cases he : el.isEmpty
          · simp only [he, Bool.not_true, Bool.false_eq_true, if_false]
            exact List.filter_congr fun a _ => by
              simp [keepDirSpec, hinc, hexc, hi, he]
          · simp only [Bool.not_eq_true] at he
            simp only [he, Bool.not_false, if_true, List.filter_filter]
            exact List.filter_congr fun a _ => by
              simp [keepDirSpec, hinc, hexc, hi, he, Bool.and_comm]
  · unfold filterCommands
    cases hinc : config.include_filters with
    | none =>
      cases hexc : config.exclude_filters with
      | none =>
        symm
        rw [List.filter_eq_self]
        intro a _
        simp [keepDirSpec, hinc, hexc]
      | some el =>
        by_cases he : el.isEmpty
        · simp only [he, Bool.not_true, Bool.false_eq_true, if_false]
          symm
          rw [List.filter_eq_self]
          intro a _
          simp [keepDirSpec, hinc, hexc, he]
        · simp only [Bool.not_eq_true] at he
          simp only [he, Bool.not_false, if_true]
          exact List.filter_congr fun a _ => by
            simp [keepDirSpec, hinc, hexc, he]
    | some il =>
      by_cases hi : il.isEmpty
      · simp only [hi, Bool.not_true, Bool.false_eq_true, if_false]
        cases hexc : config.exclude_filters with
        | none =>
          symm
          rw [List.filter_eq_self]
          intro a _
          simp [keepDirSpec, hinc, hexc, hi]
        | some el =>
          by_cases he : el.isEmpty
          · simp only [he, Bool.not_true, Bool.false_eq_true, if_false]
            symm
            rw [List.filter_eq_self]
            intro a _
            simp [keepDirSpec, hinc, hexc, hi, he]
          · simp only [Bool.not_eq_true] at he
            simp only [he, Bool.not_false, if_true]
            exact List.filter_congr fun a _ => by
              simp [keepDirSpec, hinc, hexc, hi, he]
      · simp only [Bool.not_eq_true] at hi
        simp only [hi, Bool.not_false, if_true]
        cases hexc : config.exclude_filters with
        | none =>
          exact List.filter_congr fun a _ => by
            simp [keepDirSpec, hinc, hexc, hi]
        | some el =>
          by_cases he : el.isEmpty
          · simp only [he, Bool.not_true, Bool.false_eq_true, if_false]
            exact List.filter_congr fun a _ => by
              simp [keepDirSpec, hinc, hexc, hi, he]
          · simp only [Bool.not_eq_true] at he
            simp only [he, Bool.not_false, if_true, List.filter_filter]
            exact List.filter_congr fun a _ => by
              simp [keepDirSpec, hinc, hexc, hi, he, Bool.and_comm]
end LoopSpec
